import Mathlib

/-
Verification of the bulk-create task subsystem of the listing service.

The definitions below are a shallow embedding of `src/models/bulk_create.py`
(task store and background worker) and of the two bulk-create endpoints of
`src/main.py`.  Machine details that the claims do not depend on are abstracted
as follows: timestamps (`datetime.now()`) are naturals supplied by the
environment, the MySQL connection/cursor pair is a fallible acquisition step,
and each `INSERT` is a fallible step returning the assigned row id
(`cursor.lastrowid`).  The Python dict `_bulk_create_tasks` stores object
references and `update_bulk_create_task` mutates the referenced object in
place, so the store is modelled with an explicit heap (list of records indexed
by address) plus an association list from task id to address; this keeps the
reference/copy distinction of the source observable.
-/

namespace ListingService

/-- One entry of the `created_listings` list built by the worker:
the Python dict layout is `id` (assigned row id) and `index` (0-based input position). -/
structure CreatedEntry where
  id : Nat
  index : Nat
deriving DecidableEq

/-- The `results` dict written at completion (bulk_create.py lines 117-121). -/
structure BulkResults where
  created_count : Nat
  error_count : Nat
  created_listings : List CreatedEntry
deriving DecidableEq

/-- `BulkCreateTaskStatus` (bulk_create.py lines 19-26).  `status` holds one of
the strings "pending", "processing", "completed", "failed"; timestamps are
abstracted to naturals. -/
structure BulkCreateTaskStatus where
  task_id : String
  status : String
  message : String
  created_at : Nat
  completed_at : Option Nat := none
  results : Option BulkResults := none
  errors : Option (List String) := none
deriving DecidableEq

/-- Association-list lookup mirroring Python dict lookup on task ids. -/
def lookupAddr : List (String × Nat) → String → Option Nat
  | [], _ => none
  | (k, v) :: rest, tid => if k = tid then some v else lookupAddr rest tid

/-- Dict assignment: overwrite the binding for the key if present, else append. -/
def dictInsert : List (String × Nat) → String → Nat → List (String × Nat)
  | [], tid, a => [(tid, a)]
  | (k, v) :: rest, tid, a =>
      if k = tid then (k, a) :: rest else (k, v) :: dictInsert rest tid a

/-- Apply `f` to the element at position `a`, if any. -/
def listModify (f : α → α) : Nat → List α → List α
  | _, [] => []
  | 0, x :: xs => f x :: xs
  | n + 1, x :: xs => x :: listModify f n xs

/-- The module-level registry `_bulk_create_tasks` (bulk_create.py line 29) with
Python reference semantics: `heap` holds the record objects (addresses are list
positions, allocation appends) and `dict` maps each task id to the address of
the object it currently denotes. -/
structure Store where
  heap : List BulkCreateTaskStatus
  dict : List (String × Nat)
deriving DecidableEq

def emptyStore : Store := ⟨[], []⟩

/-- `store_bulk_create_task` (bulk_create.py lines 33-36): the caller passes a
freshly constructed record object; the dict binds the task id to it.  The new
object is allocated at the end of the heap. -/
def store_bulk_create_task (s : Store) (tid : String) (t : BulkCreateTaskStatus) : Store :=
  ⟨s.heap ++ [t], dictInsert s.dict tid s.heap.length⟩

/-- `get_bulk_create_task` (bulk_create.py lines 38-41) returns
`_bulk_create_tasks.get(task_id)`: the stored object reference (here: its heap
address), or `None` when absent. -/
def get_bulk_create_task (s : Store) (tid : String) : Option Nat :=
  lookupAddr s.dict tid

/-- Dereference a task object reference. -/
def derefTask (s : Store) (a : Nat) : Option BulkCreateTaskStatus :=
  s.heap[a]?

/-- The value currently associated with a task id (reference lookup followed by
a dereference at the moment of reading). -/
def taskAt (s : Store) (tid : String) : Option BulkCreateTaskStatus :=
  (get_bulk_create_task s tid).bind (derefTask s)

/-- The `message` field currently visible for a task id. -/
def messageAt (s : Store) (tid : String) : Option String :=
  (taskAt s tid).map (·.message)

/-- `update_bulk_create_task` (bulk_create.py lines 43-48): if the task id is
bound, mutate the referenced object in place by the given field assignments
(the `setattr` loop runs under the lock, so one update is atomic and is
modelled as a single function applied to the record); otherwise do nothing. -/
def update_bulk_create_task (s : Store) (tid : String)
    (f : BulkCreateTaskStatus → BulkCreateTaskStatus) : Store :=
  match lookupAddr s.dict tid with
  | none => s
  | some a => ⟨listModify f a s.heap, s.dict⟩

/-- The record value current for a task id, projected to its `status` field. -/
def statusAt (s : Store) (tid : String) : Option String :=
  (taskAt s tid).map (·.status)

/-- The record value current for a task id, projected to its `results` field. -/
def resultsAt (s : Store) (tid : String) : Option BulkResults :=
  (taskAt s tid).bind (·.results)

/-- The record value current for a task id, projected to its `errors` field. -/
def errorsAt (s : Store) (tid : String) : Option (List String) :=
  (taskAt s tid).bind (·.errors)

/-- The listing-creation payload as consumed by the bulk-create code path: the
worker (bulk_create.py lines 85-93) reads exactly the fields landlord_email,
name, address, start_date, end_date, description and picture_url, matching the
payload shape stated for this subsystem.  Dates are kept abstract as strings;
optional fields are `Option`. -/
structure ListingCreate where
  landlord_email : String
  name : String
  address : String
  start_date : String
  end_date : Option String := none
  description : Option String := none
  picture_url : Option String := none
deriving DecidableEq

/-- The tuple bound to the SQL placeholders (bulk_create.py lines 85-93). -/
structure ListingValues where
  landlord_email : String
  name : String
  address : String
  start_date : String
  end_date : Option String
  description : Option String
  picture_url : Option String
deriving DecidableEq

/-- Build the values tuple; `str(listing.picture_url) if listing.picture_url
else None` maps a falsy value (absent or empty string) to NULL. -/
def mkValues (l : ListingCreate) : ListingValues :=
  { landlord_email := l.landlord_email
    name := l.name
    address := l.address
    start_date := l.start_date
    end_date := l.end_date
    description := l.description
    picture_url :=
      match l.picture_url with
      | some u => if u = "" then none else some u
      | none => none }

/-- External behavior one worker run observes: whether acquiring the pooled
connection (and its cursor) succeeds, the outcome of each item's INSERT (error
message raised, or the assigned `lastrowid`), whether the final `conn.commit()`
succeeds, and the clock value `datetime.now()` returns at finalization. -/
structure WorkerEnv where
  conn : Except String Unit
  insert : Nat → ListingValues → Except String Nat
  commit : Except String Unit
  now : Nat

/-- Percentage of the batch attempted after `i1` of `n` items, in tenths of a
percent: the exact rational `i1 / n * 100` rounded to one decimal place, ties
to even (the float computation at bulk_create.py line 100 modelled over ℚ). -/
def pctTenths (i1 n : Nat) : Nat :=
  let q := i1 * 1000
  let d := q / n
  let r := q % n
  if 2 * r < n then d
  else if n < 2 * r then d + 1
  else if d % 2 = 0 then d else d + 1

/-- Render the percentage with one decimal place, as `str.format(".1f")` does. -/
def pctString (i1 n : Nat) : String :=
  toString (pctTenths i1 n / 10) ++ "." ++ toString (pctTenths i1 n % 10)

/-- The message set when processing starts (bulk_create.py line 60). -/
def processingMsg (n : Nat) : String :=
  "Processing " ++ toString n ++ " listings..."

/-- The progress message written after a successful item (bulk_create.py line 103). -/
def progressMsg (i1 n : Nat) : String :=
  "Processing " ++ toString i1 ++ "/" ++ toString n ++ " listings (" ++ pctString i1 n ++ "%)"

/-- The error entry recorded for a failed item at 0-based position `i`
(bulk_create.py line 107). -/
def errorMsg (i : Nat) (e : String) : String :=
  "Listing " ++ toString (i + 1) ++ ": " ++ e

/-- The final message on completion (bulk_create.py line 116). -/
def completedMsg (k : Nat) : String :=
  "Successfully created " ++ toString k ++ " listings"

/-- The final message on the unrecoverable-failure path (bulk_create.py line 136). -/
def failedMsg (e : String) : String :=
  "Bulk creation failed: " ++ e

/-- Mutable state carried through the per-item loop: the shared store plus the
local `created_listings` and `errors` accumulators (bulk_create.py lines 70-71). -/
structure LoopAcc where
  store : Store
  created : List CreatedEntry
  errors : List String
deriving DecidableEq

/-- One iteration of the per-item loop (bulk_create.py lines 74-108) for the
payload at absolute position `i` in a batch of `n`: on success the id/index
pair is appended and the progress message written; on failure the error entry
is appended and the loop continues, leaving the store untouched. -/
def stepItem (env : WorkerEnv) (tid : String) (n i : Nat) (l : ListingCreate)
    (acc : LoopAcc) : LoopAcc :=
  match env.insert i (mkValues l) with
  | .ok newId =>
      ⟨update_bulk_create_task acc.store tid (fun t => { t with message := progressMsg (i + 1) n }),
       acc.created ++ [⟨newId, i⟩], acc.errors⟩
  | .error e => ⟨acc.store, acc.created, acc.errors ++ [errorMsg i e]⟩

/-- The whole per-item loop, started at position `i`. -/
def runItems (env : WorkerEnv) (tid : String) (n : Nat) :
    Nat → List ListingCreate → LoopAcc → LoopAcc
  | _, [], acc => acc
  | i, l :: ls, acc => runItems env tid n (i + 1) ls (stepItem env tid n i l acc)

/-- The loop states after each item, in order (one entry per attempted item). -/
def runItemsTrace (env : WorkerEnv) (tid : String) (n : Nat) :
    Nat → List ListingCreate → LoopAcc → List LoopAcc
  | _, [], _ => []
  | i, l :: ls, acc =>
      let acc1 := stepItem env tid n i l acc
      acc1 :: runItemsTrace env tid n (i + 1) ls acc1

/-- The id/index pairs of exactly the items whose INSERT succeeds, in input
order, starting at position `i` (the contents the loop accumulates into
`created_listings`). -/
def successEntries (env : WorkerEnv) : Nat → List ListingCreate → List CreatedEntry
  | _, [] => []
  | i, l :: ls =>
      match env.insert i (mkValues l) with
      | .ok newId => ⟨newId, i⟩ :: successEntries env (i + 1) ls
      | .error _ => successEntries env (i + 1) ls

/-- The error strings of exactly the items whose INSERT fails, in input order
(the contents the loop accumulates into `errors`). -/
def failureMsgs (env : WorkerEnv) : Nat → List ListingCreate → List String
  | _, [] => []
  | i, l :: ls =>
      match env.insert i (mkValues l) with
      | .ok _ => failureMsgs env (i + 1) ls
      | .error e => errorMsg i e :: failureMsgs env (i + 1) ls

/-- The first update of a worker run (bulk_create.py lines 57-61): status
becomes "processing" together with the batch-size message. -/
def startProcessing (tid : String) (n : Nat) (s : Store) : Store :=
  update_bulk_create_task s tid fun t =>
    { t with status := "processing", message := processingMsg n }

/-- The completion update (bulk_create.py lines 112-123). -/
def finishCompleted (env : WorkerEnv) (tid : String) (acc : LoopAcc) : Store :=
  update_bulk_create_task acc.store tid fun t =>
    { t with
        status := "completed"
        completed_at := some env.now
        message := completedMsg acc.created.length
        results := some ⟨acc.created.length, acc.errors.length, acc.created⟩
        errors := if acc.errors.isEmpty then none else some acc.errors }

/-- The unrecoverable-failure update (bulk_create.py lines 131-138). -/
def finishFailed (env : WorkerEnv) (tid : String) (s : Store) (e : String) : Store :=
  update_bulk_create_task s tid fun t =>
    { t with
        status := "failed"
        completed_at := some env.now
        message := failedMsg e
        errors := some [e] }

/-- `process_bulk_create_listings` (bulk_create.py lines 51-138), as the
sequence of store states it produces, in order: the "processing" update, then
one state per attempted item, then the terminal update.  If connection
acquisition raises, the outer handler produces the failed state directly; if
`conn.commit()` raises after the loop, the outer handler likewise produces the
failed state.  `cursor.close()`/`conn.close()` are modelled as non-failing. -/
def process_bulk_create_listings (env : WorkerEnv) (tid : String)
    (listings : List ListingCreate) (s1 : Store) : List Store :=
  let n := listings.length
  let s2 := startProcessing tid n s1
  s2 ::
    match env.conn with
    | .error e => [finishFailed env tid s2 e]
    | .ok _ =>
        let tr := runItemsTrace env tid n 0 listings ⟨s2, [], []⟩
        let acc := runItems env tid n 0 listings ⟨s2, [], []⟩
        tr.map (·.store) ++
          [match env.commit with
           | .error e => finishFailed env tid acc.store e
           | .ok _ => finishCompleted env tid acc]

/-- The listings a worker run leaves durably inserted: the per-item INSERTs
become durable only when `conn.commit()` (bulk_create.py line 110) executes;
when connection acquisition or the commit fails, the connection is closed
without a commit and nothing is persisted.  On the successful path the loop's
accumulator equals `successEntries` (proved below). -/
def committedEntries (env : WorkerEnv) (listings : List ListingCreate) : List CreatedEntry :=
  match env.conn, env.commit with
  | .ok _, .ok _ => successEntries env 0 listings
  | _, _ => []

/-- The immediate 202 response body (bulk_create.py lines 14-17). -/
structure BulkCreateTaskResponse where
  task_id : String
  status : String
  message : String
deriving DecidableEq

/-- The message stored with the pending record at submission (main.py line 329). -/
def queuedMsg (n : Nat) : String :=
  "Bulk creation of " ++ toString n ++ " listings queued"

/-- The message returned in the 202 response (main.py line 340). -/
def startedMsg (tid : String) : String :=
  "Bulk creation started. Use GET /bulk-create/task/" ++ tid ++ " to check progress."

/-- The initial record stored at submission (main.py lines 326-331). -/
def pendingTask (tid : String) (now : Nat) (n : Nat) : BulkCreateTaskStatus :=
  ⟨tid, "pending", queuedMsg n, now, none, none, none⟩

/-- `bulk_create_listings` (main.py lines 317-341): store a fresh pending
record, schedule the worker, and return the 202 body immediately.  The task id
and submission clock are parameters (uuid4 and `datetime.now()`). -/
def bulk_create_listings (s0 : Store) (tid : String) (now : Nat)
    (listings : List ListingCreate) : Store × BulkCreateTaskResponse :=
  (store_bulk_create_task s0 tid (pendingTask tid now listings.length),
   ⟨tid, "pending", startedMsg tid⟩)

/-- Outcome of the status endpoint: the serialized snapshot, or an HTTP error. -/
inductive StatusLookup where
  | ok (t : BulkCreateTaskStatus)
  | notFound (code : Nat) (detail : String)
deriving DecidableEq

/-- `get_bulk_create_task_status` (main.py lines 344-350): look the task up and
serialize its current value, or raise 404 with the fixed detail string. -/
def get_bulk_create_task_status (s : Store) (tid : String) : StatusLookup :=
  match taskAt s tid with
  | some t => .ok t
  | none => .notFound 404 "Bulk create task not found"

/-- The store right after submission. -/
def submitStore (s0 : Store) (tid : String) (now : Nat)
    (listings : List ListingCreate) : Store :=
  (bulk_create_listings s0 tid now listings).1

/-- The store states of one complete task lifecycle, in order: the pending
record stored by submission, then every state the worker writes.  FastAPI
background tasks start only after the response is sent, so the submit's store
insert precedes every worker update. -/
def systemTrace (env : WorkerEnv) (s0 : Store) (tid : String) (now : Nat)
    (listings : List ListingCreate) : List Store :=
  submitStore s0 tid now listings ::
    process_bulk_create_listings env tid listings (submitStore s0 tid now listings)

/-- The store after the task's lifecycle has finished. -/
def systemFinal (env : WorkerEnv) (s0 : Store) (tid : String) (now : Nat)
    (listings : List ListingCreate) : Store :=
  (systemTrace env s0 tid now listings).getLastD s0

/-- The statuses a task id exhibits along a sequence of store states. -/
def statusesOf (tr : List Store) (tid : String) : List String :=
  tr.filterMap fun s => (taskAt s tid).map (·.status)

/-- The status transitions the spec's state machine allows, observed at the
granularity of store states: a step either leaves the status unchanged (a
message-only update or a no-op) or follows one of the three lifecycle edges. -/
def allowedTransition (a b : String) : Prop :=
  a = b ∨ (a = "pending" ∧ b = "processing") ∨
    (a = "processing" ∧ (b = "completed" ∨ b = "failed"))

/-- The record written by the worker's first update. -/
def processingTask (tid : String) (now : Nat) (n : Nat) : BulkCreateTaskStatus :=
  { pendingTask tid now n with status := "processing", message := processingMsg n }

/-- The loop state after the first `k` items of the batch have been attempted
(the loop is entered from the store holding the "processing" record). -/
def loopStateAfter (env : WorkerEnv) (s0 : Store) (tid : String) (now : Nat)
    (listings : List ListingCreate) (k : Nat) : LoopAcc :=
  runItems env tid listings.length 0 (listings.take k)
    ⟨startProcessing tid listings.length (submitStore s0 tid now listings), [], []⟩

/-- The loop state after the whole batch has been attempted. -/
def loopFinal (env : WorkerEnv) (s0 : Store) (tid : String) (now : Nat)
    (listings : List ListingCreate) : LoopAcc :=
  runItems env tid listings.length 0 listings
    ⟨startProcessing tid listings.length (submitStore s0 tid now listings), [], []⟩

/-! ### Task-store lemmas -/

theorem lookupAddr_dictInsert_self (d : List (String × Nat)) (k : String) (a : Nat) :
    lookupAddr (dictInsert d k a) k = some a := by
  induction d with
  | nil => simp [dictInsert, lookupAddr]
  | cons p rest ih =>
    obtain ⟨k1, v1⟩ := p
    by_cases h : k1 = k
    · simp [dictInsert, h, lookupAddr]
    · simp [dictInsert, h, lookupAddr, ih]

theorem lookupAddr_dictInsert_ne (d : List (String × Nat)) (k q : String) (a : Nat)
    (h : q ≠ k) : lookupAddr (dictInsert d k a) q = lookupAddr d q := by
  induction d with
  | nil =>
    simp [dictInsert, lookupAddr]
    intro hk
    exact absurd hk.symm h
  | cons p rest ih =>
    obtain ⟨k1, v1⟩ := p
    by_cases h1 : k1 = k
    · subst h1
      have hne : ¬(k1 = q) := fun hk => h hk.symm
      simp [dictInsert, lookupAddr, hne]
    · simp [dictInsert, h1, lookupAddr, ih]

theorem getElem?_listModify_self (f : α → α) (l : List α) (a : Nat) :
    (listModify f a l)[a]? = l[a]?.map f := by
  induction l generalizing a with
  | nil => simp [listModify]
  | cons x xs ih =>
    cases a with
    | zero => simp [listModify]
    | succ m => simp [listModify, ih]

theorem taskAt_store_self (s : Store) (tid : String) (t : BulkCreateTaskStatus) :
    taskAt (store_bulk_create_task s tid t) tid = some t := by
  simp only [taskAt, get_bulk_create_task, store_bulk_create_task,
    lookupAddr_dictInsert_self, Option.bind_some, derefTask]
  exact List.getElem?_concat_length _ _

theorem update_dict (s : Store) (tid : String)
    (f : BulkCreateTaskStatus → BulkCreateTaskStatus) :
    (update_bulk_create_task s tid f).dict = s.dict := by
  unfold update_bulk_create_task
  cases lookupAddr s.dict tid <;> rfl

theorem taskAt_update_self (s : Store) (tid : String)
    (f : BulkCreateTaskStatus → BulkCreateTaskStatus) :
    taskAt (update_bulk_create_task s tid f) tid = (taskAt s tid).map f := by
  unfold taskAt get_bulk_create_task update_bulk_create_task derefTask
  cases h : lookupAddr s.dict tid with
  | none => simp [h]
  | some a => simp [h, getElem?_listModify_self]

theorem taskAt_none_of_lookup_none (s : Store) (tid : String)
    (h : lookupAddr s.dict tid = none) : taskAt s tid = none := by
  simp [taskAt, get_bulk_create_task, h]

theorem taskAt_submitStore (s0 : Store) (tid : String) (now : Nat)
    (listings : List ListingCreate) :
    taskAt (submitStore s0 tid now listings) tid
      = some (pendingTask tid now listings.length) :=
  taskAt_store_self s0 tid (pendingTask tid now listings.length)

theorem taskAt_startProcessing (s : Store) (tid : String) (n : Nat)
    (t : BulkCreateTaskStatus) (h : taskAt s tid = some t) :
    taskAt (startProcessing tid n s) tid
      = some { t with status := "processing", message := processingMsg n } := by
  unfold startProcessing
  rw [taskAt_update_self, h]
  rfl

/-! ### Worker-loop lemmas -/

theorem stepItem_store_dict (env : WorkerEnv) (tid : String) (n i : Nat)
    (l : ListingCreate) (acc : LoopAcc) :
    (stepItem env tid n i l acc).store.dict = acc.store.dict := by
  unfold stepItem
  cases env.insert i (mkValues l) with
  | ok v => simp [update_dict]
  | error e => rfl

theorem runItems_store_dict (env : WorkerEnv) (tid : String) (n : Nat)
    (ps : List ListingCreate) :
    ∀ (i : Nat) (acc : LoopAcc),
      (runItems env tid n i ps acc).store.dict = acc.store.dict := by
  induction ps with
  | nil => intro i acc; rfl
  | cons l ls ih =>
    intro i acc
    rw [runItems, ih, stepItem_store_dict]

theorem runItemsTrace_store_dict (env : WorkerEnv) (tid : String) (n : Nat)
    (ps : List ListingCreate) :
    ∀ (i : Nat) (acc : LoopAcc), ∀ a ∈ runItemsTrace env tid n i ps acc,
      a.store.dict = acc.store.dict := by
  induction ps with
  | nil => intro i acc a ha; simp [runItemsTrace] at ha
  | cons l ls ih =>
    intro i acc a ha
    simp only [runItemsTrace, List.mem_cons] at ha
    rcases ha with rfl | ha
    · exact stepItem_store_dict env tid n i l acc
    · rw [ih (i + 1) _ a ha, stepItem_store_dict]

theorem taskAt_stepItem (env : WorkerEnv) (tid : String) (n i : Nat)
    (l : ListingCreate) (acc : LoopAcc) (t : BulkCreateTaskStatus)
    (h : taskAt acc.store tid = some t) :
    ∃ m, taskAt (stepItem env tid n i l acc).store tid = some { t with message := m } := by
  unfold stepItem
  cases env.insert i (mkValues l) with
  | error e => exact ⟨t.message, h⟩
  | ok v =>
    refine ⟨progressMsg (i + 1) n, ?_⟩
    simp only []
    rw [taskAt_update_self, h]
    rfl

theorem taskAt_runItems (env : WorkerEnv) (tid : String) (n : Nat)
    (ps : List ListingCreate) :
    ∀ (i : Nat) (acc : LoopAcc) (t : BulkCreateTaskStatus),
      taskAt acc.store tid = some t →
      ∃ m, taskAt (runItems env tid n i ps acc).store tid = some { t with message := m } := by
  induction ps with
  | nil => intro i acc t h; exact ⟨t.message, h⟩
  | cons l ls ih =>
    intro i acc t h
    obtain ⟨m1, h1⟩ := taskAt_stepItem env tid n i l acc t h
    obtain ⟨m2, h2⟩ := ih (i + 1) (stepItem env tid n i l acc) _ h1
    exact ⟨m2, h2⟩

theorem taskAt_runItemsTrace (env : WorkerEnv) (tid : String) (n : Nat)
    (ps : List ListingCreate) :
    ∀ (i : Nat) (acc : LoopAcc) (t : BulkCreateTaskStatus),
      taskAt acc.store tid = some t →
      ∀ a ∈ runItemsTrace env tid n i ps acc,
        ∃ m, taskAt a.store tid = some { t with message := m } := by
  induction ps with
  | nil => intro i acc t h a ha; simp [runItemsTrace] at ha
  | cons l ls ih =>
    intro i acc t h a ha
    simp only [runItemsTrace, List.mem_cons] at ha
    obtain ⟨m1, h1⟩ := taskAt_stepItem env tid n i l acc t h
    rcases ha with rfl | ha
    · exact ⟨m1, h1⟩
    · obtain ⟨m2, h2⟩ := ih (i + 1) _ _ h1 a ha
      exact ⟨m2, h2⟩

theorem runItems_created (env : WorkerEnv) (tid : String) (n : Nat)
    (ps : List ListingCreate) :
    ∀ (i : Nat) (acc : LoopAcc),
      (runItems env tid n i ps acc).created = acc.created ++ successEntries env i ps := by
  induction ps with
  | nil => intro i acc; simp [runItems, successEntries]
  | cons l ls ih =>
    intro i acc
    rw [runItems, ih]
    cases h : env.insert i (mkValues l) with
    | ok v => simp [stepItem, h, successEntries]
    | error e => simp [stepItem, h, successEntries]

theorem runItems_errors (env : WorkerEnv) (tid : String) (n : Nat)
    (ps : List ListingCreate) :
    ∀ (i : Nat) (acc : LoopAcc),
      (runItems env tid n i ps acc).errors = acc.errors ++ failureMsgs env i ps := by
  induction ps with
  | nil => intro i acc; simp [runItems, failureMsgs]
  | cons l ls ih =>
    intro i acc
    rw [runItems, ih]
    cases h : env.insert i (mkValues l) with
    | ok v => simp [stepItem, h, failureMsgs]
    | error e => simp [stepItem, h, failureMsgs]

theorem successEntries_length_add (env : WorkerEnv) (ps : List ListingCreate) :
    ∀ i : Nat,
      (successEntries env i ps).length + (failureMsgs env i ps).length = ps.length := by
  induction ps with
  | nil => intro i; simp [successEntries, failureMsgs]
  | cons l ls ih =>
    intro i
    have hi := ih (i + 1)
    cases h : env.insert i (mkValues l) with
    | ok v =>
      simp only [successEntries, failureMsgs, h, List.length_cons]
      omega
    | error e =>
      simp only [successEntries, failureMsgs, h, List.length_cons]
      omega

theorem successEntries_le_index (env : WorkerEnv) (ps : List ListingCreate) :
    ∀ i : Nat, ∀ c ∈ successEntries env i ps, i ≤ c.index := by
  induction ps with
  | nil => intro i c hc; simp [successEntries] at hc
  | cons l ls ih =>
    intro i c hc
    cases h : env.insert i (mkValues l) with
    | ok v =>
      rw [successEntries, h] at hc
      rcases List.mem_cons.mp hc with rfl | hc
      · exact Nat.le_refl i
      · exact Nat.le_of_succ_le (ih (i + 1) c hc)
    | error e =>
      rw [successEntries, h] at hc
      exact Nat.le_of_succ_le (ih (i + 1) c hc)

theorem successEntries_sorted (env : WorkerEnv) (ps : List ListingCreate) :
    ∀ i : Nat,
      (successEntries env i ps).Pairwise (fun a b => a.index < b.index) := by
  induction ps with
  | nil => intro i; simp [successEntries]
  | cons l ls ih =>
    intro i
    cases h : env.insert i (mkValues l) with
    | error e => rw [successEntries, h]; exact ih (i + 1)
    | ok v =>
      rw [successEntries, h]
      refine List.Pairwise.cons ?_ (ih (i + 1))
      intro b hb
      exact Nat.lt_of_succ_le (successEntries_le_index env ls (i + 1) b hb)

theorem mem_successEntries (env : WorkerEnv) (ps : List ListingCreate) :
    ∀ (i j : Nat) (l : ListingCreate) (nid : Nat),
      ps.get? j = some l → env.insert (i + j) (mkValues l) = .ok nid →
      (⟨nid, i + j⟩ : CreatedEntry) ∈ successEntries env i ps := by
  induction ps with
  | nil => intro i j l nid h _; simp at h
  | cons p ps2 ih =>
    intro i j l nid hj hins
    cases j with
    | zero =>
      simp only [List.get?_cons_zero, Option.some.injEq] at hj
      subst hj
      rw [Nat.add_zero] at hins ⊢
      rw [successEntries, hins]
      exact List.mem_cons_self _ _
    | succ j2 =>
      simp only [List.get?_cons_succ] at hj
      have harith : (i + 1) + j2 = i + (j2 + 1) := by omega
      have h2 := ih (i + 1) j2 l nid hj (by rw [harith]; exact hins)
      rw [harith] at h2
      cases h : env.insert i (mkValues p) with
      | ok v => rw [successEntries, h]; exact List.mem_cons_of_mem _ h2
      | error e => rw [successEntries, h]; exact h2

theorem mem_failureMsgs (env : WorkerEnv) (ps : List ListingCreate) :
    ∀ (i j : Nat) (l : ListingCreate) (e : String),
      ps.get? j = some l → env.insert (i + j) (mkValues l) = .error e →
      errorMsg (i + j) e ∈ failureMsgs env i ps := by
  induction ps with
  | nil => intro i j l e h _; simp at h
  | cons p ps2 ih =>
    intro i j l e hj hins
    cases j with
    | zero =>
      simp only [List.get?_cons_zero, Option.some.injEq] at hj
      subst hj
      rw [Nat.add_zero] at hins ⊢
      rw [failureMsgs, hins]
      exact List.mem_cons_self _ _
    | succ j2 =>
      simp only [List.get?_cons_succ] at hj
      have harith : (i + 1) + j2 = i + (j2 + 1) := by omega
      have h2 := ih (i + 1) j2 l e hj (by rw [harith]; exact hins)
      rw [harith] at h2
      cases h : env.insert i (mkValues p) with
      | ok v => rw [failureMsgs, h]; exact h2
      | error e2 => rw [failureMsgs, h]; exact List.mem_cons_of_mem _ h2

theorem runItemsTrace_length (env : WorkerEnv) (tid : String) (n : Nat)
    (ps : List ListingCreate) :
    ∀ (i : Nat) (acc : LoopAcc),
      (runItemsTrace env tid n i ps acc).length = ps.length := by
  induction ps with
  | nil => intro i acc; rfl
  | cons l ls ih =>
    intro i acc
    simp only [runItemsTrace, List.length_cons, ih]

theorem runItemsTrace_get? (env : WorkerEnv) (tid : String) (n : Nat)
    (ps : List ListingCreate) :
    ∀ (i j : Nat) (acc : LoopAcc) (l : ListingCreate), ps.get? j = some l →
      (runItemsTrace env tid n i ps acc).get? j
        = some (runItems env tid n i (ps.take (j + 1)) acc) := by
  induction ps with
  | nil => intro i j acc l h; simp at h
  | cons p ps2 ih =>
    intro i j acc l hj
    cases j with
    | zero => rfl
    | succ j2 =>
      simp only [List.get?_cons_succ] at hj
      simp only [runItemsTrace, List.get?_cons_succ, List.take_succ_cons, runItems]
      exact ih (i + 1) j2 _ l hj

theorem runItems_take_succ (env : WorkerEnv) (tid : String) (n : Nat)
    (ps : List ListingCreate) :
    ∀ (i j : Nat) (acc : LoopAcc) (l : ListingCreate), ps.get? j = some l →
      runItems env tid n i (ps.take (j + 1)) acc
        = stepItem env tid n (i + j) l (runItems env tid n i (ps.take j) acc) := by
  induction ps with
  | nil => intro i j acc l h; simp at h
  | cons p ps2 ih =>
    intro i j acc l hj
    cases j with
    | zero =>
      simp only [List.get?_cons_zero, Option.some.injEq] at hj
      subst hj
      rfl
    | succ j2 =>
      simp only [List.get?_cons_succ] at hj
      simp only [List.take_succ_cons, runItems]
      rw [ih (i + 1) j2 _ l hj]
      have harith : (i + 1) + j2 = i + (j2 + 1) := by omega
      rw [harith]

/-! ### System-run lemmas -/

theorem systemFinal_conn_error (env : WorkerEnv) (s0 : Store) (tid : String)
    (now : Nat) (listings : List ListingCreate) (e : String)
    (hc : env.conn = .error e) :
    systemFinal env s0 tid now listings
      = finishFailed env tid
          (startProcessing tid listings.length (submitStore s0 tid now listings)) e := by
  simp only [systemFinal, systemTrace, process_bulk_create_listings, hc]
  rfl

theorem systemFinal_commit_error (env : WorkerEnv) (s0 : Store) (tid : String)
    (now : Nat) (listings : List ListingCreate) (e : String)
    (hc : env.conn = .ok ()) (hk : env.commit = .error e) :
    systemFinal env s0 tid now listings
      = finishFailed env tid (loopFinal env s0 tid now listings).store e := by
  simp only [systemFinal, systemTrace, process_bulk_create_listings, hc, hk, loopFinal]
  rw [List.getLastD_cons, List.getLastD_cons, List.getLastD_concat]

theorem systemFinal_commit_ok (env : WorkerEnv) (s0 : Store) (tid : String)
    (now : Nat) (listings : List ListingCreate)
    (hc : env.conn = .ok ()) (hk : env.commit = .ok ()) :
    systemFinal env s0 tid now listings
      = finishCompleted env tid (loopFinal env s0 tid now listings) := by
  simp only [systemFinal, systemTrace, process_bulk_create_listings, hc, hk, loopFinal]
  rw [List.getLastD_cons, List.getLastD_cons, List.getLastD_concat]

theorem taskAt_processingStore (s0 : Store) (tid : String) (now : Nat)
    (listings : List ListingCreate) :
    taskAt (startProcessing tid listings.length (submitStore s0 tid now listings)) tid
      = some (processingTask tid now listings.length) :=
  taskAt_startProcessing _ tid _ _ (taskAt_submitStore s0 tid now listings)

theorem taskAt_loopFinal (env : WorkerEnv) (s0 : Store) (tid : String) (now : Nat)
    (listings : List ListingCreate) :
    ∃ m, taskAt (loopFinal env s0 tid now listings).store tid
      = some { processingTask tid now listings.length with message := m } :=
  taskAt_runItems env tid listings.length listings 0
    ⟨startProcessing tid listings.length (submitStore s0 tid now listings), [], []⟩
    (processingTask tid now listings.length)
    (taskAt_processingStore s0 tid now listings)

theorem loopFinal_created (env : WorkerEnv) (s0 : Store) (tid : String) (now : Nat)
    (listings : List ListingCreate) :
    (loopFinal env s0 tid now listings).created = successEntries env 0 listings := by
  unfold loopFinal
  rw [runItems_created]
  rfl

theorem loopFinal_errors (env : WorkerEnv) (s0 : Store) (tid : String) (now : Nat)
    (listings : List ListingCreate) :
    (loopFinal env s0 tid now listings).errors = failureMsgs env 0 listings := by
  unfold loopFinal
  rw [runItems_errors]
  rfl

theorem taskAt_systemFinal_completed (env : WorkerEnv) (s0 : Store) (tid : String)
    (now : Nat) (listings : List ListingCreate)
    (hc : env.conn = .ok ()) (hk : env.commit = .ok ()) :
    taskAt (systemFinal env s0 tid now listings) tid = some
      { task_id := tid
        status := "completed"
        message := completedMsg (successEntries env 0 listings).length
        created_at := now
        completed_at := some env.now
        results := some ⟨(successEntries env 0 listings).length,
                         (failureMsgs env 0 listings).length,
                         successEntries env 0 listings⟩
        errors := if (failureMsgs env 0 listings).isEmpty then none
                  else some (failureMsgs env 0 listings) } := by
  rw [systemFinal_commit_ok env s0 tid now listings hc hk]
  obtain ⟨m, hm⟩ := taskAt_loopFinal env s0 tid now listings
  unfold finishCompleted
  rw [taskAt_update_self, hm]
  rw [loopFinal_created, loopFinal_errors]
  rfl

theorem taskAt_systemFinal_conn_error (env : WorkerEnv) (s0 : Store) (tid : String)
    (now : Nat) (listings : List ListingCreate) (e : String)
    (hc : env.conn = .error e) :
    taskAt (systemFinal env s0 tid now listings) tid
      = some ⟨tid, "failed", failedMsg e, now, some env.now, none, some [e]⟩ := by
  rw [systemFinal_conn_error env s0 tid now listings e hc]
  unfold finishFailed
  rw [taskAt_update_self, taskAt_processingStore]
  rfl

theorem taskAt_systemFinal_commit_error (env : WorkerEnv) (s0 : Store) (tid : String)
    (now : Nat) (listings : List ListingCreate) (e : String)
    (hc : env.conn = .ok ()) (hk : env.commit = .error e) :
    taskAt (systemFinal env s0 tid now listings) tid
      = some ⟨tid, "failed", failedMsg e, now, some env.now, none, some [e]⟩ := by
  rw [systemFinal_commit_error env s0 tid now listings e hc hk]
  obtain ⟨m, hm⟩ := taskAt_loopFinal env s0 tid now listings
  unfold finishFailed
  rw [taskAt_update_self, hm]
  rfl

theorem systemTrace_dict (env : WorkerEnv) (s0 : Store) (tid : String) (now : Nat)
    (listings : List ListingCreate) :
    ∀ st ∈ systemTrace env s0 tid now listings,
      st.dict = dictInsert s0.dict tid s0.heap.length := by
  intro st hst
  have hsub : (submitStore s0 tid now listings).dict
      = dictInsert s0.dict tid s0.heap.length := rfl
  have hproc : (startProcessing tid listings.length (submitStore s0 tid now listings)).dict
      = dictInsert s0.dict tid s0.heap.length := by
    unfold startProcessing
    rw [update_dict, hsub]
  simp only [systemTrace, process_bulk_create_listings, List.mem_cons] at hst
  rcases hst with rfl | hst
  · exact hsub
  rcases hst with rfl | hst
  · exact hproc
  cases hc : env.conn with
  | error e =>
    rw [hc] at hst
    simp only [List.mem_singleton] at hst
    subst hst
    unfold finishFailed
    rw [update_dict, hproc]
  | ok u =>
    rw [hc] at hst
    rw [List.mem_append] at hst
    rcases hst with hst | hst
    · rw [List.mem_map] at hst
      obtain ⟨a, ha, rfl⟩ := hst
      have := runItemsTrace_store_dict env tid listings.length listings 0
        ⟨startProcessing tid listings.length (submitStore s0 tid now listings), [], []⟩ a ha
      rw [this, hproc]
    · simp only [List.mem_singleton] at hst
      subst hst
      have hlf : (runItems env tid listings.length 0 listings
          ⟨startProcessing tid listings.length (submitStore s0 tid now listings),
            [], []⟩).store.dict = dictInsert s0.dict tid s0.heap.length := by
        rw [runItems_store_dict]
        exact hproc
      cases env.commit with
      | error e =>
        unfold finishFailed
        rw [update_dict, hlf]
      | ok u2 =>
        unfold finishCompleted
        rw [update_dict, hlf]

theorem systemTrace_taskAt (env : WorkerEnv) (s0 : Store) (tid : String) (now : Nat)
    (listings : List ListingCreate) :
    ∀ st ∈ systemTrace env s0 tid now listings,
      ∃ t, taskAt st tid = some t ∧
        ((t.status = "pending" ∧ t.completed_at = none) ∨
         (t.status = "processing" ∧ t.completed_at = none) ∨
         ((t.status = "completed" ∨ t.status = "failed") ∧
           t.completed_at = some env.now)) := by
  intro st hst
  have hsub := taskAt_submitStore s0 tid now listings
  have hproc := taskAt_processingStore s0 tid now listings
  simp only [systemTrace, process_bulk_create_listings, List.mem_cons] at hst
  rcases hst with rfl | hst
  · exact ⟨pendingTask tid now listings.length, hsub, Or.inl ⟨rfl, rfl⟩⟩
  rcases hst with rfl | hst
  · exact ⟨processingTask tid now listings.length, hproc, Or.inr (Or.inl ⟨rfl, rfl⟩)⟩
  cases hc : env.conn with
  | error e =>
    rw [hc] at hst
    simp only [List.mem_singleton] at hst
    subst hst
    have hfin := taskAt_systemFinal_conn_error env s0 tid now listings e hc
    rw [systemFinal_conn_error env s0 tid now listings e hc] at hfin
    exact ⟨_, hfin, Or.inr (Or.inr ⟨Or.inr rfl, rfl⟩)⟩
  | ok u =>
    cases u
    rw [hc] at hst
    rw [List.mem_append] at hst
    rcases hst with hst | hst
    · rw [List.mem_map] at hst
      obtain ⟨a, ha, rfl⟩ := hst
      obtain ⟨m, hm⟩ := taskAt_runItemsTrace env tid listings.length listings 0
        ⟨startProcessing tid listings.length (submitStore s0 tid now listings), [], []⟩
        (processingTask tid now listings.length) hproc a ha
      exact ⟨_, hm, Or.inr (Or.inl ⟨rfl, rfl⟩)⟩
    · simp only [List.mem_singleton] at hst
      subst hst
      cases hk : env.commit with
      | error e =>
        have hfin := taskAt_systemFinal_commit_error env s0 tid now listings e hc hk
        rw [systemFinal_commit_error env s0 tid now listings e hc hk] at hfin
        exact ⟨_, hfin, Or.inr (Or.inr ⟨Or.inr rfl, rfl⟩)⟩
      | ok u2 =>
        cases u2
        have hfin := taskAt_systemFinal_completed env s0 tid now listings hc hk
        rw [systemFinal_commit_ok env s0 tid now listings hc hk] at hfin
        exact ⟨_, hfin, Or.inr (Or.inr ⟨Or.inl rfl, rfl⟩)⟩

theorem statusesOf_runItemsTrace (env : WorkerEnv) (tid : String) (n : Nat)
    (ps : List ListingCreate) :
    ∀ (i : Nat) (acc : LoopAcc) (t : BulkCreateTaskStatus),
      taskAt acc.store tid = some t → t.status = "processing" →
      statusesOf ((runItemsTrace env tid n i ps acc).map (·.store)) tid
        = List.replicate ps.length "processing" := by
  induction ps with
  | nil => intro i acc t h hs; simp [runItemsTrace, statusesOf]
  | cons l ls ih =>
    intro i acc t h hs
    obtain ⟨m, hm⟩ := taskAt_stepItem env tid n i l acc t h
    have hs2 : ({ t with message := m } : BulkCreateTaskStatus).status = "processing" := hs
    simp only [runItemsTrace, List.map_cons, statusesOf, List.filterMap_cons, hm,
      Option.map_some', hs2, List.replicate_succ]
    have ihr := ih (i + 1) (stepItem env tid n i l acc) _ hm hs2
    simp only [statusesOf] at ihr
    rw [ihr, List.length_cons, List.replicate_succ, hs]

theorem chain_processing_tail (k : Nat) (term : String)
    (h : term = "completed" ∨ term = "failed") :
    List.Chain' allowedTransition
      ("processing" :: (List.replicate k "processing" ++ [term])) := by
  induction k with
  | zero =>
    refine List.chain'_cons.mpr ⟨Or.inr (Or.inr ⟨rfl, h⟩), ?_⟩
    exact List.chain'_singleton term
  | succ k ih =>
    rw [List.replicate_succ, List.cons_append]
    exact List.chain'_cons.mpr ⟨Or.inl rfl, ih⟩

theorem statusesOf_trace_conn_error (env : WorkerEnv) (s0 : Store) (tid : String)
    (now : Nat) (listings : List ListingCreate) (e : String)
    (hc : env.conn = .error e) :
    statusesOf (systemTrace env s0 tid now listings) tid
      = ["pending", "processing", "failed"] := by
  have hfin := taskAt_systemFinal_conn_error env s0 tid now listings e hc
  rw [systemFinal_conn_error env s0 tid now listings e hc] at hfin
  simp only [systemTrace, process_bulk_create_listings, hc, statusesOf,
    List.filterMap_cons, List.filterMap_nil, taskAt_submitStore,
    taskAt_processingStore, hfin, Option.map_some']
  rfl

theorem statusesOf_trace_commit_error (env : WorkerEnv) (s0 : Store) (tid : String)
    (now : Nat) (listings : List ListingCreate) (e : String)
    (hc : env.conn = .ok ()) (hk : env.commit = .error e) :
    statusesOf (systemTrace env s0 tid now listings) tid
      = "pending" :: "processing" ::
          (List.replicate listings.length "processing" ++ ["failed"]) := by
  have hloop := statusesOf_runItemsTrace env tid listings.length listings 0
    ⟨startProcessing tid listings.length (submitStore s0 tid now listings), [], []⟩
    (processingTask tid now listings.length)
    (taskAt_processingStore s0 tid now listings) rfl
  have hfin := taskAt_systemFinal_commit_error env s0 tid now listings e hc hk
  rw [systemFinal_commit_error env s0 tid now listings e hc hk] at hfin
  simp only [loopFinal] at hfin
  simp only [systemTrace, process_bulk_create_listings, hc, hk, statusesOf,
    List.filterMap_cons, List.filterMap_append, List.filterMap_nil,
    taskAt_submitStore, taskAt_processingStore, hfin, Option.map_some']
  simp only [statusesOf] at hloop
  rw [hloop]
  rfl

theorem statusesOf_trace_completed (env : WorkerEnv) (s0 : Store) (tid : String)
    (now : Nat) (listings : List ListingCreate)
    (hc : env.conn = .ok ()) (hk : env.commit = .ok ()) :
    statusesOf (systemTrace env s0 tid now listings) tid
      = "pending" :: "processing" ::
          (List.replicate listings.length "processing" ++ ["completed"]) := by
  have hloop := statusesOf_runItemsTrace env tid listings.length listings 0
    ⟨startProcessing tid listings.length (submitStore s0 tid now listings), [], []⟩
    (processingTask tid now listings.length)
    (taskAt_processingStore s0 tid now listings) rfl
  have hfin := taskAt_systemFinal_completed env s0 tid now listings hc hk
  rw [systemFinal_commit_ok env s0 tid now listings hc hk] at hfin
  simp only [loopFinal] at hfin
  simp only [systemTrace, process_bulk_create_listings, hc, hk, statusesOf,
    List.filterMap_cons, List.filterMap_append, List.filterMap_nil,
    taskAt_submitStore, taskAt_processingStore, hfin, Option.map_some']
  simp only [statusesOf] at hloop
  rw [hloop]
  rfl

/-! ### String-shape lemmas for the two submission messages -/

theorem str_data_append (a b : String) : (a ++ b).data = a.data ++ b.data := by
  cases a
  cases b
  rfl

theorem data_get14_left (p rest : String) (c : Char)
    (hl : 14 < p.data.length) (hp : p.data[14]? = some c) :
    (p ++ rest).data[14]? = some c := by
  rw [str_data_append, List.getElem?_append_left hl, hp]

theorem startedMsg_get14 (tid : String) : (startedMsg tid).data[14]? = some 's' := by
  unfold startedMsg
  have h1 : ("Bulk creation started. Use GET /bulk-create/task/" ++ tid).data[14]? = some 's' :=
    data_get14_left _ tid 's' (by decide) (by decide)
  have h2 : 14 < ("Bulk creation started. Use GET /bulk-create/task/" ++ tid).data.length := by
    rw [str_data_append, List.length_append]
    have : 14 < ("Bulk creation started. Use GET /bulk-create/task/" : String).data.length := by
      decide
    omega
  exact data_get14_left _ _ 's' h2 h1

theorem queuedMsg_get14 (n : Nat) : (queuedMsg n).data[14]? = some 'o' := by
  unfold queuedMsg
  have h1 : ("Bulk creation of " ++ toString n).data[14]? = some 'o' :=
    data_get14_left _ (toString n) 'o' (by decide) (by decide)
  have h2 : 14 < ("Bulk creation of " ++ toString n).data.length := by
    rw [str_data_append, List.length_append]
    have : 14 < ("Bulk creation of " : String).data.length := by decide
    omega
  exact data_get14_left _ _ 'o' h2 h1

theorem startedMsg_ne_queuedMsg (tid : String) (n : Nat) :
    startedMsg tid ≠ queuedMsg n := by
  intro h
  have h1 := startedMsg_get14 tid
  have h2 := queuedMsg_get14 n
  rw [h] at h1
  rw [h1] at h2
  exact absurd h2 (by decide)

/-! ### Concrete inputs used by witnesses and counterexamples -/

/-- A sample creation payload. -/
def payloadA : ListingCreate :=
  ⟨"a@example.com", "Apt A", "1 Main St", "2025-01-01", none, none, none⟩

/-- Environment where everything succeeds: row ids are 100, 101, ... -/
def envOK : WorkerEnv := ⟨.ok (), fun i _ => .ok (100 + i), .ok (), 7⟩

/-- Environment where only the item at position 1 fails to persist. -/
def envItem1Fails : WorkerEnv :=
  ⟨.ok (), fun i _ => if i = 1 then .error "Duplicate entry" else .ok (100 + i), .ok (), 7⟩

/-- Environment where every INSERT fails. -/
def envAllFail : WorkerEnv := ⟨.ok (), fun _ _ => .error "boom", .ok (), 7⟩

/-- Environment where acquiring the datastore connection itself fails. -/
def envConnDown : WorkerEnv :=
  ⟨.error "pool exhausted", fun i _ => .ok (100 + i), .ok (), 7⟩

/-- A stored record and the store states around one update, for exercising the
reference semantics of `get_bulk_create_task`. -/
def c5Record : BulkCreateTaskStatus :=
  ⟨"t", "pending", "queued", 0, none, none, none⟩

def c5Store1 : Store := store_bulk_create_task emptyStore "t" c5Record

def c5Store2 : Store :=
  update_bulk_create_task c5Store1 "t" fun t => { t with message := "changed" }

/-- Does a record satisfy: `completed_at` is present exactly when the status is
terminal ("completed" or "failed")? -/
def completedAtConsistent (t : BulkCreateTaskStatus) : Bool :=
  t.completed_at.isSome == (t.status == "completed" || t.status == "failed")

/-! ### Claims -/

/-- C1: for every batch, once the task's final status is "completed", `results`
is present and holds `created_count` and `error_count` summing to the number of
input items, with `created_count` the length of `created_listings`, and
`created_listings` is exactly the list of id/index pairs of the successfully
inserted items, in strictly increasing order of 0-based input position. -/
theorem claim_C1 (env : WorkerEnv) (s0 : Store) (tid : String) (now : Nat)
    (listings : List ListingCreate)
    (hdone : statusAt (systemFinal env s0 tid now listings) tid = some "completed") :
    resultsAt (systemFinal env s0 tid now listings) tid
        = some ⟨(successEntries env 0 listings).length,
                (failureMsgs env 0 listings).length,
                successEntries env 0 listings⟩ ∧
    (successEntries env 0 listings).length + (failureMsgs env 0 listings).length
        = listings.length ∧
    List.Pairwise (fun a b => a.index < b.index) (successEntries env 0 listings) := by
  cases hc : env.conn with
  | error e =>
    have hfin := taskAt_systemFinal_conn_error env s0 tid now listings e hc
    simp [statusAt, hfin] at hdone
  | ok u =>
    cases u
    cases hk : env.commit with
    | error e =>
      have hfin := taskAt_systemFinal_commit_error env s0 tid now listings e hc hk
      simp [statusAt, hfin] at hdone
    | ok u2 =>
      cases u2
      have hfin := taskAt_systemFinal_completed env s0 tid now listings hc hk
      refine ⟨?_, successEntries_length_add env listings 0,
        successEntries_sorted env listings 0⟩
      simp [resultsAt, hfin]

/-- C1 witness: two fully successful payloads. -/
theorem claim_C1_witness :
    statusAt (systemFinal envOK emptyStore "t" 0 [payloadA, payloadA]) "t"
        = some "completed" ∧
    (resultsAt (systemFinal envOK emptyStore "t" 0 [payloadA, payloadA]) "t"
        = some ⟨(successEntries envOK 0 [payloadA, payloadA]).length,
                (failureMsgs envOK 0 [payloadA, payloadA]).length,
                successEntries envOK 0 [payloadA, payloadA]⟩ ∧
      (successEntries envOK 0 [payloadA, payloadA]).length
          + (failureMsgs envOK 0 [payloadA, payloadA]).length
          = [payloadA, payloadA].length ∧
      List.Pairwise (fun a b => a.index < b.index)
        (successEntries envOK 0 [payloadA, payloadA])) :=
  ⟨by decide, claim_C1 envOK emptyStore "t" 0 [payloadA, payloadA] (by decide)⟩

/-- C2: along the whole lifecycle of a task (its stored pending record followed
by every store state the worker writes), the observed status sequence only
steps within `pending → processing → (completed | failed)`; in particular no
state ever leaves a terminal status and none regresses.  The submit operation
completes its store insert before the background worker starts (FastAPI runs
background tasks after the response), and status reads do not mutate the store,
so this trace covers every observable interleaving for one task; concurrent
tasks use distinct ids and never touch each other's record. -/
theorem claim_C2 (env : WorkerEnv) (s0 : Store) (tid : String) (now : Nat)
    (listings : List ListingCreate) :
    List.Chain' allowedTransition
      (statusesOf (systemTrace env s0 tid now listings) tid) := by
  cases hc : env.conn with
  | error e =>
    rw [statusesOf_trace_conn_error env s0 tid now listings e hc]
    exact List.chain'_cons.mpr ⟨Or.inr (Or.inl ⟨rfl, rfl⟩),
      List.chain'_cons.mpr ⟨Or.inr (Or.inr ⟨rfl, Or.inr rfl⟩),
        List.chain'_singleton _⟩⟩
  | ok u =>
    cases u
    cases hk : env.commit with
    | error e =>
      rw [statusesOf_trace_commit_error env s0 tid now listings e hc hk]
      exact List.chain'_cons.mpr ⟨Or.inr (Or.inl ⟨rfl, rfl⟩),
        chain_processing_tail listings.length "failed" (Or.inr rfl)⟩
    | ok u2 =>
      cases u2
      rw [statusesOf_trace_completed env s0 tid now listings hc hk]
      exact List.chain'_cons.mpr ⟨Or.inr (Or.inl ⟨rfl, rfl⟩),
        chain_processing_tail listings.length "completed" (Or.inl rfl)⟩

/-- C3: when the item at position `j` fails to persist (and the batch-level
connection and commit succeed), the worker records the string
`"Listing <j+1>: <error>"` in the errors list, keeps going, and the task still
finishes "completed" with the failure counted in `error_count` and every other
successful item still present in `created_listings`. -/
theorem claim_C3 (env : WorkerEnv) (s0 : Store) (tid : String) (now : Nat)
    (listings : List ListingCreate) (j : Nat) (l : ListingCreate) (e : String)
    (hj : listings.get? j = some l)
    (hc : env.conn = .ok ()) (hk : env.commit = .ok ())
    (hfail : env.insert j (mkValues l) = .error e) :
    statusAt (systemFinal env s0 tid now listings) tid = some "completed" ∧
    errorsAt (systemFinal env s0 tid now listings) tid
        = some (failureMsgs env 0 listings) ∧
    errorMsg j e ∈ failureMsgs env 0 listings ∧
    0 < (failureMsgs env 0 listings).length ∧
    resultsAt (systemFinal env s0 tid now listings) tid
        = some ⟨(successEntries env 0 listings).length,
                (failureMsgs env 0 listings).length,
                successEntries env 0 listings⟩ := by
  have hfin := taskAt_systemFinal_completed env s0 tid now listings hc hk
  have hmem : errorMsg j e ∈ failureMsgs env 0 listings := by
    have h1 := mem_failureMsgs env listings 0 j l e hj
      (by rw [Nat.zero_add]; exact hfail)
    rwa [Nat.zero_add] at h1
  have hne : (failureMsgs env 0 listings).isEmpty = false := by
    cases hlist : failureMsgs env 0 listings with
    | nil => rw [hlist] at hmem; exact absurd hmem (List.not_mem_nil _)
    | cons a as => rfl
  refine ⟨?_, ?_, hmem, List.length_pos_of_mem hmem, ?_⟩
  · simp [statusAt, hfin]
  · simp [errorsAt, hfin, hne]
  · simp [resultsAt, hfin]

/-- C3 witness: two payloads, the one at position 1 failing. -/
theorem claim_C3_witness :
    ([payloadA, payloadA].get? 1 = some payloadA) ∧
    (envItem1Fails.conn = .ok ()) ∧ (envItem1Fails.commit = .ok ()) ∧
    (envItem1Fails.insert 1 (mkValues payloadA) = .error "Duplicate entry") ∧
    (statusAt (systemFinal envItem1Fails emptyStore "t" 0 [payloadA, payloadA]) "t"
        = some "completed" ∧
      errorsAt (systemFinal envItem1Fails emptyStore "t" 0 [payloadA, payloadA]) "t"
        = some (failureMsgs envItem1Fails 0 [payloadA, payloadA]) ∧
      errorMsg 1 "Duplicate entry" ∈ failureMsgs envItem1Fails 0 [payloadA, payloadA] ∧
      0 < (failureMsgs envItem1Fails 0 [payloadA, payloadA]).length ∧
      resultsAt (systemFinal envItem1Fails emptyStore "t" 0 [payloadA, payloadA]) "t"
        = some ⟨(successEntries envItem1Fails 0 [payloadA, payloadA]).length,
                (failureMsgs envItem1Fails 0 [payloadA, payloadA]).length,
                successEntries envItem1Fails 0 [payloadA, payloadA]⟩) :=
  ⟨by decide, rfl, rfl, rfl,
    claim_C3 envItem1Fails emptyStore "t" 0 [payloadA, payloadA] 1 payloadA
      "Duplicate entry" (by decide) rfl rfl rfl⟩

/-- C4 counterexample: a batch of one payload whose INSERT fails.  After the
item at position 0 is attempted (trace position 2), the task's message is still
the batch-start message "Processing 1 listings...", not the claimed progress
message "Processing 1/1 listings (100.0%)": the progress update
(bulk_create.py lines 99-104) sits inside the per-item `try` after the INSERT,
so a failed item skips it. -/
theorem claim_C4_counterexample :
    (systemTrace envAllFail emptyStore "t" 0 [payloadA]).get? 2
        = some (loopStateAfter envAllFail emptyStore "t" 0 [payloadA] 1).store ∧
    messageAt (loopStateAfter envAllFail emptyStore "t" 0 [payloadA] 1).store "t"
        = some (processingMsg 1) ∧
    progressMsg 1 1 = "Processing 1/1 listings (100.0%)" ∧
    processingMsg 1 ≠ progressMsg 1 1 := by decide

/-- C4 (amended): after the item at position `j` of an N-item batch is
attempted, the store state is that of exactly one loop step; if the item's
INSERT succeeded, the task's message has been updated to
"Processing <j+1>/<N> listings (<percentage>%)" with the percentage of
attempted items rendered to one decimal place, and if the item failed, the
message update is skipped and the store is left exactly as it was before the
item.  (The original claim's update-on-failure does not happen; the progress
message therefore advances only at successful items.) -/
theorem claim_C4 (env : WorkerEnv) (s0 : Store) (tid : String) (now : Nat)
    (listings : List ListingCreate) (j : Nat) (l : ListingCreate)
    (hj : listings.get? j = some l) (hc : env.conn = .ok ()) :
    (systemTrace env s0 tid now listings).get? (2 + j)
        = some (loopStateAfter env s0 tid now listings (j + 1)).store ∧
    loopStateAfter env s0 tid now listings (j + 1)
        = stepItem env tid listings.length j l
            (loopStateAfter env s0 tid now listings j) ∧
    (match env.insert j (mkValues l) with
     | .ok _ =>
        messageAt (loopStateAfter env s0 tid now listings (j + 1)).store tid
          = some (progressMsg (j + 1) listings.length)
     | .error _ =>
        (loopStateAfter env s0 tid now listings (j + 1)).store
          = (loopStateAfter env s0 tid now listings j).store) := by
  have hlt : j < listings.length := by
    rcases List.get?_eq_some.mp hj with ⟨h1, _⟩
    exact h1
  have htake := runItems_take_succ env tid listings.length listings 0 j
    ⟨startProcessing tid listings.length (submitStore s0 tid now listings), [], []⟩ l hj
  rw [Nat.zero_add] at htake
  refine ⟨?_, htake, ?_⟩
  · simp only [systemTrace, process_bulk_create_listings, hc]
    rw [show 2 + j = (j + 1) + 1 by omega]
    rw [List.get?_cons_succ, List.get?_cons_succ]
    rw [List.get?_append
      (by rw [List.length_map, runItemsTrace_length]; exact hlt)]
    rw [List.get?_map,
      runItemsTrace_get? env tid listings.length listings 0 j _ l hj]
    rfl
  · obtain ⟨m0, hm0⟩ := taskAt_runItems env tid listings.length (listings.take j) 0
      ⟨startProcessing tid listings.length (submitStore s0 tid now listings), [], []⟩
      (processingTask tid now listings.length)
      (taskAt_processingStore s0 tid now listings)
    cases hins : env.insert j (mkValues l) with
    | ok nid =>
      simp only [loopStateAfter]
      rw [htake]
      unfold stepItem
      simp only [hins, messageAt]
      rw [taskAt_update_self, hm0]
      rfl
    | error e =>
      simp only [loopStateAfter]
      rw [htake]
      unfold stepItem
      simp only [hins]

/-- C4 witness: a batch of one payload whose INSERT succeeds. -/
theorem claim_C4_witness :
    ([payloadA].get? 0 = some payloadA) ∧ (envOK.conn = .ok ()) ∧
    ((systemTrace envOK emptyStore "t" 0 [payloadA]).get? (2 + 0)
        = some (loopStateAfter envOK emptyStore "t" 0 [payloadA] (0 + 1)).store ∧
      loopStateAfter envOK emptyStore "t" 0 [payloadA] (0 + 1)
        = stepItem envOK "t" [payloadA].length 0 payloadA
            (loopStateAfter envOK emptyStore "t" 0 [payloadA] 0) ∧
      (match envOK.insert 0 (mkValues payloadA) with
       | .ok _ =>
          messageAt (loopStateAfter envOK emptyStore "t" 0 [payloadA] (0 + 1)).store "t"
            = some (progressMsg (0 + 1) [payloadA].length)
       | .error _ =>
          (loopStateAfter envOK emptyStore "t" 0 [payloadA] (0 + 1)).store
            = (loopStateAfter envOK emptyStore "t" 0 [payloadA] 0).store)) :=
  ⟨rfl, rfl, claim_C4 envOK emptyStore "t" 0 [payloadA] 0 payloadA rfl rfl⟩

/-- C5 counterexample: the record returned by `get_bulk_create_task` IS changed
by a later update for the same task id.  The store at address 0 holds the
record `get` returned; after `update_bulk_create_task` mutates that task, the
previously returned reference observes the new value — the source returns the
stored pydantic object itself, not a value copy. -/
theorem claim_C5_counterexample :
    get_bulk_create_task c5Store1 "t" = some 0 ∧
    derefTask c5Store2 0 ≠ derefTask c5Store1 0 := by decide

/-- C5 (amended): `get` returns a reference to the live record, not a value
snapshot: for any reference obtained from `get`, a later field update applied
to the store for that task id is visible through the reference — dereferencing
it afterwards yields exactly the updated record. -/
theorem claim_C5 (s : Store) (tid : String) (a : Nat)
    (f : BulkCreateTaskStatus → BulkCreateTaskStatus)
    (h : get_bulk_create_task s tid = some a) :
    derefTask (update_bulk_create_task s tid f) a = (derefTask s a).map f := by
  unfold get_bulk_create_task at h
  unfold update_bulk_create_task
  rw [h]
  simp [derefTask, getElem?_listModify_self]

/-- C5 witness: the concrete store above. -/
theorem claim_C5_witness :
    get_bulk_create_task c5Store1 "t" = some 0 ∧
    derefTask
        (update_bulk_create_task c5Store1 "t" fun t => { t with message := "changed" }) 0
      = (derefTask c5Store1 0).map fun t => { t with message := "changed" } :=
  ⟨by decide, claim_C5 c5Store1 "t" 0 _ (by decide)⟩

/-- C6: at every store state of a task's lifecycle, the task's `completed_at`
is set exactly when its status is "completed" or "failed"; it is absent while
the status is "pending" or "processing". -/
theorem claim_C6 (env : WorkerEnv) (s0 : Store) (tid : String) (now : Nat)
    (listings : List ListingCreate) (st : Store)
    (hst : st ∈ systemTrace env s0 tid now listings) :
    (taskAt st tid).all completedAtConsistent = true := by
  obtain ⟨t, ht, hcases⟩ := systemTrace_taskAt env s0 tid now listings st hst
  rw [ht]
  show completedAtConsistent t = true
  rcases hcases with ⟨h1, h2⟩ | ⟨h1, h2⟩ | ⟨h1, h2⟩
  · simp [completedAtConsistent, h1, h2]
  · simp [completedAtConsistent, h1, h2]
  · rcases h1 with h1 | h1 <;> simp [completedAtConsistent, h1, h2]

/-- C6 witness: the pending state of a concrete run. -/
theorem claim_C6_witness :
    (submitStore emptyStore "t" 0 [payloadA]
        ∈ systemTrace envOK emptyStore "t" 0 [payloadA]) ∧
    (taskAt (submitStore emptyStore "t" 0 [payloadA]) "t").all completedAtConsistent
        = true :=
  ⟨by decide, claim_C6 envOK emptyStore "t" 0 [payloadA] _ (by decide)⟩

/-- C7: when acquiring the datastore connection itself fails (a batch-level
failure), the task's final record has status "failed", `completed_at` set, the
message "Bulk creation failed: <error>", `errors` equal to the one-element list
with the failure description, and `results` absent; and no listing of the batch
is committed to the datastore. -/
theorem claim_C7 (env : WorkerEnv) (s0 : Store) (tid : String) (now : Nat)
    (listings : List ListingCreate) (e : String) (hc : env.conn = .error e) :
    taskAt (systemFinal env s0 tid now listings) tid
        = some ⟨tid, "failed", failedMsg e, now, some env.now, none, some [e]⟩ ∧
    committedEntries env listings = [] := by
  refine ⟨taskAt_systemFinal_conn_error env s0 tid now listings e hc, ?_⟩
  unfold committedEntries
  rw [hc]

/-- C7 witness: the connection-down environment. -/
theorem claim_C7_witness :
    (envConnDown.conn = .error "pool exhausted") ∧
    (taskAt (systemFinal envConnDown emptyStore "t" 0 [payloadA]) "t"
        = some ⟨"t", "failed", failedMsg "pool exhausted", 0, some 7, none,
                some ["pool exhausted"]⟩ ∧
      committedEntries envConnDown [payloadA] = []) :=
  ⟨rfl, claim_C7 envConnDown emptyStore "t" 0 [payloadA] "pool exhausted" rfl⟩

/-- C8: for a task id that was never submitted (not bound in the store before
the run and distinct from the submitted id), the status endpoint answers
404 with detail "Bulk create task not found" at every point of the lifecycle —
never a stale or default record. -/
theorem claim_C8 (env : WorkerEnv) (s0 : Store) (tid : String) (now : Nat)
    (listings : List ListingCreate) (qid : String) (st : Store)
    (hqid : qid ≠ tid) (h0 : lookupAddr s0.dict qid = none)
    (hst : st ∈ systemTrace env s0 tid now listings) :
    get_bulk_create_task_status st qid
      = .notFound 404 "Bulk create task not found" := by
  have hd := systemTrace_dict env s0 tid now listings st hst
  have hq : lookupAddr st.dict qid = none := by
    rw [hd, lookupAddr_dictInsert_ne s0.dict tid qid s0.heap.length hqid, h0]
  unfold get_bulk_create_task_status
  rw [taskAt_none_of_lookup_none st qid hq]

/-- C8 witness: polling an unknown id right after submission. -/
theorem claim_C8_witness :
    ("q" ≠ "t") ∧ (lookupAddr emptyStore.dict "q" = none) ∧
    (submitStore emptyStore "t" 0 [payloadA]
        ∈ systemTrace envOK emptyStore "t" 0 [payloadA]) ∧
    get_bulk_create_task_status (submitStore emptyStore "t" 0 [payloadA]) "q"
        = .notFound 404 "Bulk create task not found" :=
  ⟨by decide, rfl, by decide,
    claim_C8 envOK emptyStore "t" 0 [payloadA] "q" _ (by decide) rfl (by decide)⟩

/-- C9: the empty batch (given the connection and commit succeed, the nominal
datastore conditions of the scenario) finishes "completed" with
`created_count = 0` and `error_count = 0`; its lifecycle consists of exactly
the three states pending, processing, completed — the loop body, and with it
the sole percentage computation, never runs, so no division by zero can
occur. -/
theorem claim_C9 (env : WorkerEnv) (s0 : Store) (tid : String) (now : Nat)
    (hc : env.conn = .ok ()) (hk : env.commit = .ok ()) :
    taskAt (systemFinal env s0 tid now []) tid
        = some ⟨tid, "completed", completedMsg 0, now, some env.now,
                some ⟨0, 0, []⟩, none⟩ ∧
    (systemTrace env s0 tid now []).length = 3 := by
  constructor
  · exact taskAt_systemFinal_completed env s0 tid now [] hc hk
  · simp [systemTrace, process_bulk_create_listings, hc, hk, runItemsTrace]

/-- C9 witness: the all-success environment on the empty batch. -/
theorem claim_C9_witness :
    (envOK.conn = .ok ()) ∧ (envOK.commit = .ok ()) ∧
    (taskAt (systemFinal envOK emptyStore "t" 0 []) "t"
        = some ⟨"t", "completed", completedMsg 0, 0, some 7, some ⟨0, 0, []⟩, none⟩ ∧
      (systemTrace envOK emptyStore "t" 0 []).length = 3) :=
  ⟨rfl, rfl, claim_C9 envOK emptyStore "t" 0 rfl rfl⟩

/-- C10: the 202 response of the submit endpoint carries the fixed message
"Bulk creation started. Use GET /bulk-create/task/<task_id> to check
progress.", while the record it stores — and hence what the status endpoint
returns before the worker runs — carries "Bulk creation of <N> listings
queued"; the two strings differ for every task id and batch size (they already
differ at character position 14). -/
theorem claim_C10 (s0 : Store) (tid : String) (now : Nat)
    (listings : List ListingCreate) :
    (bulk_create_listings s0 tid now listings).2.message = startedMsg tid ∧
    messageAt (submitStore s0 tid now listings) tid
        = some (queuedMsg listings.length) ∧
    get_bulk_create_task_status (submitStore s0 tid now listings) tid
        = .ok (pendingTask tid now listings.length) ∧
    startedMsg tid ≠ queuedMsg listings.length := by
  refine ⟨rfl, ?_, ?_, startedMsg_ne_queuedMsg tid listings.length⟩
  · unfold messageAt
    rw [taskAt_submitStore]
    rfl
  · unfold get_bulk_create_task_status
    rw [taskAt_submitStore]

end ListingService
